import Mathlib

/-
Verification development for build_sfc_schools_heatmap.py: a pipeline that
parses school-level pact records grouped by region, geocodes postcodes
through a persistent cache, computes engagement percentages, and aggregates
regions onto county boundary polygons via merge / broadcast / rename / omit
rules.

The Python code is shallowly embedded: dictionaries become association lists
or functions into Option, floats become ℚ (Python's round is half-to-even,
modelled exactly on ℚ), and the county dictionaries built by
build_county_data become a state record threaded through folds that mirror
the three mapping passes of the source.
-/

/- ── Python round: half-to-even at a decimal place ────────────────────── -/

/-- Round a rational to the nearest integer, ties to the even integer.
This is the rounding Python's builtin round performs (banker's rounding). -/
def rhe (q : ℚ) : ℤ :=
  if q - Rat.floor q < 1/2 then Rat.floor q
  else if 1/2 < q - Rat.floor q then Rat.floor q + 1
  else if Rat.floor q % 2 = 0 then Rat.floor q else Rat.floor q + 1

/-- Python round(x, 1) on ℚ: half-to-even at one decimal place. -/
def round1 (q : ℚ) : ℚ := (rhe (10 * q) : ℚ) / 10

/-- Python round(x, 5) on ℚ: half-to-even at five decimal places,
used for cached latitudes and longitudes. -/
def round5 (q : ℚ) : ℚ := (rhe (100000 * q) : ℚ) / 100000

/- ── Python f-string thousands formatting: f-spec comma grouping ──────── -/

/-- Digits are processed least-significant first; a comma is emitted after
every third digit while more digits remain. -/
def commaAux : List Char → ℕ → List Char
  | [], _ => []
  | c :: cs, k =>
    c :: (if k = 3 ∧ cs ≠ [] then ',' :: commaAux cs 1 else commaAux cs (k + 1))

/-- Python format spec with a comma, as in the merge provenance labels. -/
def commaFmt (n : ℕ) : String :=
  ⟨(commaAux (Nat.repr n).data.reverse 1).reverse⟩

/- ── Data model: School records as parsed from the bundle ─────────────── -/

/-- One school record, as materialised by extract_school_data.  Parsing
leaves lat = lng = 0.0 and the engagement percentage unset. -/
structure School where
  id : String
  name : String
  pacts : ℕ
  pupils : ℕ
  postcode : String
  address : String
  high_age : ℕ
  low_age : ℕ
  lat : ℚ
  lng : ℚ
  region : String
  pact_pct : ℚ
deriving DecidableEq, Repr

/-- Per-region record built by extract_school_data: the declared header
total together with aggregates derived from all parsed schools of the
region span, before any geocoding. -/
structure RegionData where
  pacts : ℕ
  school_pacts : ℕ
  pupils : ℕ
  school_count : ℕ
deriving DecidableEq, Repr

/-- region_data as built in extract_school_data lines 117-159: the declared
total comes from the region header; the other three fields sum over every
parsed school of the region, with no coordinate filtering. -/
def regionDataOf (declared : String → ℕ) (schools : List School) (r : String) : RegionData :=
  { pacts := declared r
    school_pacts := ((schools.filter (fun s => s.region = r)).map School.pacts).sum
    pupils := ((schools.filter (fun s => s.region = r)).map School.pupils).sum
    school_count := (schools.filter (fun s => s.region = r)).length }

/- ── Geocode cache client ─────────────────────────────────────────────── -/

/-- The on-disk geocode cache: a JSON object mapping normalized postcodes
to [lat, lng] pairs, embedded as an association list. -/
abbrev Cache := List (String × (ℚ × ℚ))

/-- Python whitespace as stripped by str.strip(). -/
def isPyWs (c : Char) : Bool :=
  c = ' ' ∨ c = '\t' ∨ c = '\n' ∨ c = '\r'

/-- str.strip() on a character list. -/
def stripWs (l : List Char) : List Char :=
  ((l.dropWhile isPyWs).reverse.dropWhile isPyWs).reverse

/-- Postcode normalization from the source: upper(), strip(), then
replace all spaces by nothing. -/
def normPc (s : String) : String :=
  ⟨(stripWs (s.data.map Char.toUpper)).filter (fun c => ¬ c = ' ')⟩

/-- Normalization applied to the query field of a geocode response item:
upper() and space removal, with no strip(). -/
def respNorm (s : String) : String :=
  ⟨(s.data.map Char.toUpper).filter (fun c => ¬ c = ' ')⟩

/-- Python dict assignment cached[k] = v on the association list. -/
def cupd (c : Cache) (k : String) (v : ℚ × ℚ) : Cache :=
  match c with
  | [] => [(k, v)]
  | (k', v') :: rest => if k' = k then (k, v) :: rest else (k', v') :: cupd rest k v

/-- Insertion into a lexicographically sorted list of strings. -/
def insertSorted (x : String) : List String → List String
  | [] => [x]
  | y :: ys => if compare x y = Ordering.gt then y :: insertSorted x ys else x :: y :: ys

/-- sorted() on a list of strings. -/
def sortStr (l : List String) : List String := l.foldr insertSorted []

/-- Remove duplicates keeping first occurrences. -/
def firstDedupAux : List String → List String → List String
  | [], _ => []
  | x :: xs, seen =>
    if seen.contains x then firstDedupAux xs seen else x :: firstDedupAux xs (x :: seen)

/-- Remove duplicates keeping first occurrences. -/
def firstDedup (l : List String) : List String := firstDedupAux l []

/-- unique_postcodes of geocode_postcodes: the sorted set of nonempty
normalized postcodes of the input schools that are absent from the loaded
cache. -/
def newPostcodes (c : Cache) (schools : List School) : List String :=
  sortStr (firstDedup
    ((schools.map (fun s => normPc s.postcode)).filter
      (fun pc => ¬ pc = "" ∧ (c.lookup pc).isNone)))

/-- Fixed-size batching: the current chunk is accumulated in reverse in
acc while k counts the remaining capacity of the chunk. -/
def chunks100Aux : List String → List String → ℕ → List (List String)
  | [], acc, _ => if acc = [] then [] else [acc.reverse]
  | x :: xs, acc, k =>
    if k = 0 then acc.reverse :: chunks100Aux xs [x] 99
    else chunks100Aux xs (x :: acc) (k - 1)

/-- Fixed-size batching (batch_size = 100) of the postcode list. -/
def chunks100 (l : List String) : List (List String) := chunks100Aux l [] 100

/-- The batches actually requested by a run. -/
def batches (c : Cache) (schools : List School) : List (List String) :=
  chunks100 (newPostcodes c schools)

/-- One item of a bulk geocode response: a query echo and an optional
result; None models a null result. -/
structure RespItem where
  query : String
  result : Option (ℚ × ℚ)
deriving DecidableEq, Repr

/-- Processing of one response item: the result is stored only when both
coordinates are truthy (nonzero), rounded to five decimal places, under the
normalized query key. -/
def applyItem (c : Cache) (it : RespItem) : Cache :=
  match it.result with
  | none => c
  | some (la, lo) =>
    if ¬ la = 0 ∧ ¬ lo = 0 then cupd c (respNorm it.query) (round5 la, round5 lo) else c

/-- Processing of one batch: a failed batch (None response) is skipped and
mutates nothing; a successful response has each item applied in order. -/
def applyBatch (c : Cache) (resp : Option (List RespItem)) : Cache :=
  match resp with
  | none => c
  | some items => items.foldl applyItem c

/-- The cache after the batch loop of geocode_postcodes: one optional
response per requested batch, applied in order. -/
def runGeocode (c : Cache) (schools : List School) (resps : List (Option (List RespItem))) : Cache :=
  (((batches c schools).zip resps).map Prod.snd).foldl applyBatch c

/-- Coordinate assignment of geocode_postcodes lines 242-248: a school
whose normalized postcode is cached gets its lat/lng fields set. -/
def assignCoords (c : Cache) (s : School) : School :=
  match c.lookup (normPc s.postcode) with
  | some (la, lo) => { s with lat := la, lng := lo }
  | none => s

/-- The school list returned by geocode_postcodes: coordinates assigned
from the final cache, then schools whose lat is still 0.0 removed. -/
def geocodeResult (c : Cache) (schools : List School) : List School :=
  (schools.map (assignCoords c)).filter (fun s => ¬ s.lat = 0)

/- ── Cache persistence (step written at lines 236-237) ────────────────── -/

/-- File-system effect of persisting the cache: opening with mode w
truncates the file, then the dump writes the full new contents. -/
inductive FsOp where
  | truncate : FsOp
  | writeAll : Cache → FsOp
deriving Repr

/-- Effect of one operation on the cache file contents. -/
def applyFsOp (file : Cache) : FsOp → Cache
  | FsOp.truncate => []
  | FsOp.writeAll d => d

/-- The persistence of geocode_postcodes: open(cache_path, w) followed by
json.dump of the whole cache. -/
def persistOps (new : Cache) : List FsOp := [FsOp.truncate, FsOp.writeAll new]

/-- File contents if the process dies after the first k operations. -/
def crashState (old : Cache) (ops : List FsOp) (k : ℕ) : Cache :=
  (ops.take k).foldl applyFsOp old

/- ── Metrics calculator ───────────────────────────────────────────────── -/

/-- Engagement percentage at school level, calculate_metrics lines 266-270:
clamped at 100 then rounded to one decimal, 0 when pupils is zero. -/
def schoolPct (pacts pupils : ℕ) : ℚ :=
  if 0 < pupils then round1 (min ((pacts : ℚ) / (pupils : ℚ) * 100) 100) else 0

/-- Engagement percentage at region level, build_county_data lines 355-359:
the same expression as at school level. -/
def regionPct (pacts pupils : ℕ) : ℚ :=
  if 0 < pupils then round1 (min ((pacts : ℚ) / (pupils : ℚ) * 100) 100) else 0

/-- Engagement percentage at county level, build_county_data line 451:
the same expression recomputed from the assigned pair. -/
def countyPct (pacts pupils : ℕ) : ℚ :=
  if 0 < pupils then round1 (min ((pacts : ℚ) / (pupils : ℚ) * 100) 100) else 0

/-- calculate_metrics: set pact_pct on every school. -/
def calculate_metrics (schools : List School) : List School :=
  schools.map (fun s => { s with pact_pct := schoolPct s.pacts s.pupils })

/-- Half-up rounding to one decimal place, as the spec words describe the
rounding; stated with Mathlib round, which rounds half away from low values. -/
def specHalfUpPct (pacts pupils : ℕ) : ℚ :=
  if 0 < pupils then (round ((10 : ℚ) * min ((pacts : ℚ) / (pupils : ℚ) * 100) 100) : ℚ) / 10
  else 0

/- ── Boundary mapper / aggregator: configuration constants ────────────── -/

/-- Source regions of the Greater London merge rule. -/
def londonSources : List String :=
  ["London, Bromley", "London, Central", "London, East",
   "London, North West", "London, North", "London, South East",
   "London, South West", "London, West"]

/-- Source regions of the Greater Manchester merge rule. -/
def gmSources : List String := ["Greater Manchester", "Manchester"]

/-- Source regions of the Somerset merge rule. -/
def somersetSources : List String := ["Somerset", "Somerset, Bath"]

/-- Source regions of the Durham merge rule. -/
def durhamSources : List String := ["County Durham", "Tees Valley"]

/-- MERGE_MAP: several SFC regions summed into one GeoJSON county. -/
def MERGE_MAP : List (String × List String) :=
  [("Greater London", londonSources),
   ("Greater Manchester", gmSources),
   ("Somerset", somersetSources),
   ("Durham", durhamSources)]

/-- Target counties of the Scotland broadcast rule. -/
def scotlandTargets : List String :=
  ["Central", "Dumfries and Galloway", "Eilean Siar", "Fife",
   "Grampian", "Highland", "Lothian", "Orkney Islands",
   "Scottish Borders", "Shetland Islands", "Strathclyde", "Tayside"]

/-- Target counties of the Wales broadcast rule. -/
def walesTargets : List String :=
  ["Clwyd", "Dyfed", "Gwent", "Gwynedd", "Mid Glamorgan",
   "Powys", "South Glamorgan", "West Glamorgan"]

/-- Target counties of the Northern Ireland broadcast rule. -/
def niTargets : List String :=
  ["Antrim", "Armagh", "Down", "Fermanagh", "Londonderry", "Tyrone"]

/-- NATIONAL_REGIONS: one national total broadcast to several counties. -/
def NATIONAL_REGIONS : List (String × List String) :=
  [("Scotland", scotlandTargets),
   ("Wales", walesTargets),
   ("Northern Ireland", niTargets)]

/-- RENAME_MAP: direct rename from SFC name to GeoJSON name. -/
def RENAME_MAP : List (String × String) := [("County Durham", "Durham")]

/-- OMITTED: regions with no GeoJSON boundary. -/
def OMITTED : List String := ["Channel Islands", "Isle of Man", "National (UK)"]

/-- All source names listed in merge rules, in rule order. -/
def mergeSources : List String := (MERGE_MAP.map Prod.snd).flatten

/-- The broadcast source names. -/
def nationalKeys : List String := NATIONAL_REGIONS.map Prod.fst

/-- already_mapped as it stands when the direct-match pass runs: every
merge source, every broadcast source, and the omitted names. -/
def alreadyMapped : List String := mergeSources ++ nationalKeys ++ OMITTED

/-- Application of RENAME_MAP in the direct-match pass. -/
def renameOf (r : String) : String := (RENAME_MAP.lookup r).getD r

/- ── Region aggregation from the (geocode-filtered) school list ───────── -/

/-- Aggregate per region built at the top of build_county_data from the
school list it receives; absent regions give the all-zero aggregate,
matching region_agg.get(name, default) semantics. -/
structure Agg where
  pacts : ℕ
  pupils : ℕ
  school_count : ℕ
deriving DecidableEq, Repr

/-- region_agg of build_county_data lines 345-352. -/
def regionAgg (schools : List School) (r : String) : Agg :=
  { pacts := ((schools.filter (fun s => s.region = r)).map School.pacts).sum
    pupils := ((schools.filter (fun s => s.region = r)).map School.pupils).sum
    school_count := (schools.filter (fun s => s.region = r)).length }

/-- The region names present in the school list, in first-occurrence order
(the iteration order of the region_agg dict). -/
def regionNames (schools : List School) : List String :=
  firstDedup (schools.map School.region)

/- ── The county mapping state ─────────────────────────────────────────── -/

/-- The four county dictionaries of build_county_data plus the warning
log of the direct-match pass. -/
structure CState where
  pacts : String → Option ℕ
  pupils : String → Option ℕ
  schools : String → Option ℕ
  labels : String → Option String
  warnings : List String

/-- Dictionary assignment d[k] = v on a function-valued map. -/
def upd {α : Type} (m : String → Option α) (k : String) (v : α) : String → Option α :=
  fun s => if s = k then some v else m s

/-- The empty mapping state. -/
def emptyCState : CState :=
  { pacts := fun _ => none, pupils := fun _ => none, schools := fun _ => none
    labels := fun _ => none, warnings := [] }

/-- The provenance parts of a merge rule: one name-and-total string per
source region with a nonzero derived pact count. -/
def mergeParts (agg : String → Agg) (srcs : List String) : List String :=
  (srcs.filter (fun n => 0 < (agg n).pacts)).map
    (fun n => n ++ ": " ++ commaFmt (agg n).pacts)

/-- Pass 1, one merge rule (lines 395-406): sum the derived aggregates of
the listed source regions into the target county when anything is nonzero,
and emit a concatenated label when more than one source has nonzero pacts. -/
def applyMerge (agg : String → Agg) (st : CState) (rule : String × List String) : CState :=
  let g := rule.fst
  let srcs := rule.snd
  let tp := (srcs.map (fun n => (agg n).pacts)).sum
  let tu := (srcs.map (fun n => (agg n).pupils)).sum
  let ts := (srcs.map (fun n => (agg n).school_count)).sum
  if 0 < tp ∨ 0 < ts then
    let parts := mergeParts agg srcs
    let st1 := { st with pacts := upd st.pacts g tp, pupils := upd st.pupils g tu
                         schools := upd st.schools g ts }
    if 1 < parts.length then
      { st1 with labels := upd st1.labels g (String.intercalate " + " parts) }
    else st1
  else st

/-- The broadcast provenance label of a national region. -/
def broadcastLabel (src : String) : String :=
  src ++ " total (not broken down by sub-region)"

/-- The per-county assignment of a broadcast rule. -/
def bset (a : Agg) (lbl : String) (st : CState) (c : String) : CState :=
  { st with pacts := upd st.pacts c a.pacts, pupils := upd st.pupils c a.pupils
            schools := upd st.schools c a.school_count
            labels := upd st.labels c lbl }

/-- Pass 2, one broadcast rule (lines 409-422): when the source region has
nonzero pacts or schools, assign its whole aggregate, undivided, to every
listed county, each with the same national-total label. -/
def applyBroadcast (agg : String → Agg) (st : CState) (rule : String × List String) : CState :=
  let a := agg rule.fst
  if 0 < a.pacts ∨ 0 < a.school_count then
    rule.snd.foldl (bset a (broadcastLabel rule.fst)) st
  else st

/-- Pass 3, one region (lines 427-440): regions claimed by earlier passes
are skipped; the rest are renamed and matched against the boundary names,
assigned on a match and logged as a warning otherwise. -/
def applyDirect (agg : String → Agg) (geoNames : List String) (st : CState) (r : String) : CState :=
  if alreadyMapped.contains r then st
  else
    let t := renameOf r
    if geoNames.contains t then
      { st with pacts := upd st.pacts t (agg r).pacts
                pupils := upd st.pupils t (agg r).pupils
                schools := upd st.schools t (agg r).school_count }
    else if OMITTED.contains r then st
    else { st with warnings := st.warnings ++ [r] }

/-- The three mapping passes of build_county_data in order. -/
def mapCounties (agg : String → Agg) (names : List String) (geoNames : List String) : CState :=
  names.foldl (applyDirect agg geoNames)
    (NATIONAL_REGIONS.foldl (applyBroadcast agg)
      (MERGE_MAP.foldl (applyMerge agg) emptyCState))

/-- The exact condition under which the direct-match pass logs a warning
for a region name. -/
def warnB (geoNames : List String) (r : String) : Bool :=
  !(alreadyMapped.contains r) && !(geoNames.contains (renameOf r))
    && !(OMITTED.contains r)

/- ── Feature annotation ───────────────────────────────────────────────── -/

/-- The four aggregate fields plus the label written into a boundary
feature's properties. -/
structure FProps where
  pacts : ℕ
  pupils : ℕ
  pact_pct : ℚ
  school_count : ℕ
  label : String
deriving DecidableEq, Repr

/-- A boundary polygon feature: the county name its properties yield (the
empty string when neither a county nor a name property is present) and the
aggregate fields, absent until annotation writes them. -/
structure Feature where
  cname : String
  props : Option FProps
deriving DecidableEq, Repr

/-- Annotation of one feature (lines 444-457): features with a falsy county
name are skipped; all others get the four fields and the label, defaulted
to zero or the empty string, with the percentage recomputed from the
assigned pair. -/
def annotateFeature (st : CState) (f : Feature) : Feature :=
  if f.cname = "" then f
  else
    let pacts := (st.pacts f.cname).getD 0
    let pupils := (st.pupils f.cname).getD 0
    let sc := (st.schools f.cname).getD 0
    { f with props := some (FProps.mk pacts pupils (countyPct pacts pupils) sc
        ((st.labels f.cname).getD "")) }

/-- build_county_data: region aggregation from the received school list,
the three mapping passes, then feature annotation.  The region_data
argument of the source function is accepted and never read. -/
def build_county_data (schools : List School)
    (region_data : String → RegionData) (features : List Feature) : List Feature :=
  let agg := regionAgg schools
  let names := regionNames schools
  let geoNames := features.map Feature.cname
  let st := mapCounties agg names geoNames
  features.map (annotateFeature st)

/-- The spec's description of the merge provenance label: each nonzero
contributor's name paired with its declared total. -/
def specMergeLabel (declared : String → ℕ) (agg : String → Agg) (srcs : List String) : String :=
  String.intercalate " + "
    ((srcs.filter (fun n => 0 < (agg n).pacts)).map
      (fun n => n ++ ": " ++ commaFmt (declared n)))

/- ── Mutual-exclusivity helper and concrete example inputs ────────────── -/

/-- Exactly one of five propositions holds. -/
def exactlyOneOf (a b c d e : Prop) : Prop :=
  (a ∧ ¬ b ∧ ¬ c ∧ ¬ d ∧ ¬ e) ∨ (¬ a ∧ b ∧ ¬ c ∧ ¬ d ∧ ¬ e) ∨
  (¬ a ∧ ¬ b ∧ c ∧ ¬ d ∧ ¬ e) ∨ (¬ a ∧ ¬ b ∧ ¬ c ∧ d ∧ ¬ e) ∨
  (¬ a ∧ ¬ b ∧ ¬ c ∧ ¬ d ∧ e)

/-- The GeoJSON county name used in the examples. -/
def kKent : String := "Kent"

/-- The Greater Manchester merge target name. -/
def kGM : String := "Greater Manchester"

/-- One Wales broadcast target name. -/
def kClwyd : String := "Clwyd"

/-- The Wales broadcast source name. -/
def kWales : String := "Wales"

/-- A region name matching no mapping rule and no boundary name. -/
def kAtlantis : String := "Atlantis"

/-- A normalized postcode key present in the example caches. -/
def kAB : String := "AB11AA"

/-- A parsed school in region Kent whose postcode never geocodes: it is
left with the parse-time sentinel lat = lng = 0. -/
def kentSchool : School :=
  { id := "england/1", name := "Kent High", pacts := 5, pupils := 10
    postcode := "ZZ9 9ZZ", address := "Somewhere", high_age := 16, low_age := 11
    lat := 0, lng := 0, region := "Kent", pact_pct := 0 }

/-- The parsed dataset of the C1 example: the single Kent school. -/
def exParsed1 : List School := [kentSchool]

/-- Declared region totals for the C1 example. -/
def exDecl1 : String → ℕ := fun r => if r = "Kent" then 50 else 0

/-- A boundary feature named Kent with no aggregate fields yet. -/
def kentFeature : Feature := Feature.mk "Kent" none

/-- A boundary feature whose properties yield no county name. -/
def emptyFeature : Feature := Feature.mk "" none

/-- The zero region_data function used where build_county_data ignores it. -/
def exRD : String → RegionData := fun _ => RegionData.mk 0 0 0 0

/-- A school with zero pupils, for the metrics witness. -/
def exSchool0 : School :=
  { id := "england/2", name := "Zero Pupils School", pacts := 7, pupils := 0
    postcode := "AB1 1AA", address := "Here", high_age := 11, low_age := 4
    lat := 51, lng := -1, region := "Kent", pact_pct := 0 }

/-- The same school after calculate_metrics. -/
def exSchool0M : School := { exSchool0 with pact_pct := 0 }

/-- A parsed Wales school: 150 pacts, geocodable postcode, sentinel
coordinates before geocoding. -/
def walesSchool0 : School :=
  { id := "wales/1", name := "Ysgol Un", pacts := 150, pupils := 0
    postcode := "CF1 1AA", address := "Caerdydd", high_age := 16, low_age := 11
    lat := 0, lng := 0, region := "Wales", pact_pct := 0 }

/-- A cache resolving the Wales school's postcode. -/
def exCache3 : Cache := [("CF11AA", (51, -3))]

/-- Declared region totals of the C3 example: Wales declares 200. -/
def exDecl3 : String → ℕ := fun r => if r = "Wales" then 200 else 0

/-- A boundary feature for the Clwyd broadcast target. -/
def clwydFeature : Feature := Feature.mk "Clwyd" none

/-- A geocoded Wales school whose derived aggregate is 200 pacts. -/
def exWales200 : School :=
  { id := "wales/2", name := "Ysgol Dau", pacts := 200, pupils := 0
    postcode := "CF2 2BB", address := "Abertawe", high_age := 16, low_age := 11
    lat := 51, lng := -3, region := "Wales", pact_pct := 0 }

/-- A geocoded school in region Greater Manchester with 7 pacts. -/
def gmSchool : School :=
  { id := "england/3", name := "GM School", pacts := 7, pupils := 0
    postcode := "M1 1AA", address := "Manchester", high_age := 11, low_age := 4
    lat := 53, lng := -2, region := "Greater Manchester", pact_pct := 0 }

/-- A geocoded school in region Manchester with 3 pacts. -/
def mSchool : School :=
  { id := "england/4", name := "M School", pacts := 3, pupils := 0
    postcode := "M2 2BB", address := "Manchester", high_age := 11, low_age := 4
    lat := 53, lng := -2, region := "Manchester", pact_pct := 0 }

/-- The school list of the C5 example. -/
def exGMSchools : List School := [gmSchool, mSchool]

/-- Declared totals of the C5 example: Greater Manchester declares 100,
diverging from its derived total of 7. -/
def exDecl5 : String → ℕ :=
  fun r => if r = "Greater Manchester" then 100 else if r = "Manchester" then 3 else 0

/-- The label the code computes in the C5 example. -/
def gmLabel : String := "Greater Manchester: 7 + Manchester: 3"

/-- Old cache contents of the persistence example. -/
def exOld6 : Cache := [("AB11AA", (57, -2))]

/-- New cache contents of the persistence example. -/
def exNew6 : Cache := [("AB11AA", (57, -2)), ("CD22BB", (50, 1))]

/-- The cache of the geocode-filter witness. -/
def exCache7 : Cache := [("AB11AA", (57, -2))]

/-- A school whose postcode is cached. -/
def s7A : School :=
  { id := "scotland/1", name := "Cached School", pacts := 4, pupils := 0
    postcode := "AB1 1AA", address := "Aberdeen", high_age := 18, low_age := 12
    lat := 0, lng := 0, region := "Grampian", pact_pct := 0 }

/-- A school whose postcode is not cached. -/
def s7B : School :=
  { id := "scotland/2", name := "Uncached School", pacts := 9, pupils := 0
    postcode := "ZZ9 9ZZ", address := "Nowhere", high_age := 18, low_age := 12
    lat := 0, lng := 0, region := "Grampian", pact_pct := 0 }

/-- The school list of the geocode-filter witness. -/
def exSchools7 : List School := [s7A, s7B]

/-- The cache loaded at the start of the C10 example run. -/
def exCache10 : Cache := [("AB11AA", (57, -2))]

/-- A school whose postcode is new in the C10 example run. -/
def s10 : School :=
  { id := "england/5", name := "New Postcode School", pacts := 2, pupils := 0
    postcode := "CD2 2BB", address := "There", high_age := 11, low_age := 4
    lat := 0, lng := 0, region := "Kent", pact_pct := 0 }

/-- The school list of the C10 example run. -/
def exSchools10 : List School := [s10]

/-- The batch responses of the C10 example run: the single batch
resolves the new postcode. -/
def exResps10 : List (Option (List RespItem)) :=
  [some [RespItem.mk "CD2 2BB" (some (50, 1))]]

/-- The region-name list of the C8 witness: one unmatched region. -/
def exNames8 : List String := [kAtlantis]

/-- The Kent feature after annotation against the empty dataset. -/
def annotatedKent : Feature := Feature.mk "Kent" (some (FProps.mk 0 0 0 0 ""))

/-- A parsed school in the unmatched region Atlantis whose postcode never
geocodes: it keeps the parse-time sentinel lat = lng = 0. -/
def atlantisSchool : School :=
  { id := "england/6", name := "Atlantis Academy", pacts := 30, pupils := 0
    postcode := "ZZ8 8ZZ", address := "Under The Sea", high_age := 11, low_age := 4
    lat := 0, lng := 0, region := "Atlantis", pact_pct := 0 }

/-- The parsed dataset of the C8 counterexample: one school in a region
that matches no rule and no boundary name. -/
def exParsed8 : List School := [atlantisSchool]

/-- Declared region totals of the C8 counterexample. -/
def exDecl8 : String → ℕ := fun r => if r = "Atlantis" then 30 else 0

/- ── Numeric lemmas about the embedded rounding ───────────────────────── -/

theorem ratFloor_eq_intFloor (q : ℚ) : (Rat.floor q : ℤ) = ⌊q⌋ :=
  (Rat.floor_def' q).trans Rat.floor_def.symm

theorem rhe_nonneg (q : ℚ) (h : 0 ≤ q) : 0 ≤ rhe q := by
  have hf : (0 : ℤ) ≤ Rat.floor q := by
    rw [ratFloor_eq_intFloor]
    exact Int.floor_nonneg.mpr h
  unfold rhe
  split_ifs <;> omega

theorem rhe_le (q : ℚ) (n : ℤ) (h : q ≤ n) : rhe q ≤ n := by
  have hf : Rat.floor q ≤ n := by
    rw [ratFloor_eq_intFloor]
    calc ⌊q⌋ ≤ ⌊(n : ℚ)⌋ := Int.floor_le_floor h
      _ = n := Int.floor_intCast n
  have hfq : (Rat.floor q : ℚ) ≤ q := by
    rw [ratFloor_eq_intFloor]
    exact Int.floor_le q
  unfold rhe
  split_ifs with h1 h2 h3
  · exact hf
  · have hlt : (Rat.floor q : ℚ) < q := by linarith
    have : Rat.floor q < n := by exact_mod_cast lt_of_lt_of_le hlt h
    omega
  · exact hf
  · have hlt : (Rat.floor q : ℚ) < q := by linarith
    have : Rat.floor q < n := by exact_mod_cast lt_of_lt_of_le hlt h
    omega

theorem round1_nonneg (q : ℚ) (h : 0 ≤ q) : 0 ≤ round1 q := by
  unfold round1
  have h1 : (0 : ℤ) ≤ rhe (10 * q) := rhe_nonneg _ (by linarith)
  have h2 : (0 : ℚ) ≤ (rhe (10 * q) : ℚ) := by exact_mod_cast h1
  linarith

theorem round1_le_100 (q : ℚ) (h : q ≤ 100) : round1 q ≤ 100 := by
  unfold round1
  have h1 : rhe (10 * q) ≤ (1000 : ℤ) := rhe_le _ _ (by push_cast; linarith)
  have h2 : ((rhe (10 * q) : ℚ)) ≤ 1000 := by exact_mod_cast h1
  linarith

theorem schoolPct_nonneg (pc pu : ℕ) : 0 ≤ schoolPct pc pu := by
  unfold schoolPct
  split_ifs with h
  · exact round1_nonneg _ (le_min (by positivity) (by norm_num))
  · exact le_refl 0

theorem schoolPct_le_100 (pc pu : ℕ) : schoolPct pc pu ≤ 100 := by
  unfold schoolPct
  split_ifs with h
  · exact round1_le_100 _ (min_le_right _ _)
  · norm_num

theorem intFloor_thousand : ⌊(1000 : ℚ)⌋ = 1000 := by
  rw [show ((1000 : ℚ)) = ((1000 : ℤ) : ℚ) by norm_num, Int.floor_intCast]

theorem round1_hundred : round1 100 = 100 := by
  unfold round1 rhe
  have hf : Rat.floor (10 * (100 : ℚ)) = 1000 := by
    rw [ratFloor_eq_intFloor, show (10 * (100 : ℚ)) = 1000 by norm_num, intFloor_thousand]
  rw [hf]
  norm_num

theorem schoolPct_clamped : schoolPct 120 100 = 100 := by
  unfold schoolPct
  rw [if_pos (by norm_num)]
  rw [show (((120 : ℕ) : ℚ) / ((100 : ℕ) : ℚ) * 100) = 120 by norm_num]
  rw [show min (120 : ℚ) 100 = 100 by norm_num]
  exact round1_hundred

theorem intFloor_five_halves : ⌊(5/2 : ℚ)⌋ = 2 := by
  rw [Int.floor_eq_iff]
  norm_num

theorem round1_quarter : round1 (1/4) = 1/5 := by
  unfold round1 rhe
  have hf : Rat.floor (10 * (1/4 : ℚ)) = 2 := by
    rw [ratFloor_eq_intFloor, show (10 * (1/4 : ℚ)) = 5/2 by norm_num, intFloor_five_halves]
  rw [hf]
  rw [if_neg (by push_cast; norm_num), if_neg (by push_cast; norm_num),
    if_pos (by norm_num)]
  norm_num

theorem schoolPct_1_400 : schoolPct 1 400 = 1/5 := by
  unfold schoolPct
  rw [if_pos (by norm_num)]
  rw [show (((1 : ℕ) : ℚ) / ((400 : ℕ) : ℚ) * 100) = 1/4 by push_cast; norm_num]
  rw [show min (1/4 : ℚ) 100 = 1/4 by norm_num]
  exact round1_quarter

theorem specHalfUp_1_400 : specHalfUpPct 1 400 = 3/10 := by
  unfold specHalfUpPct
  rw [if_pos (by norm_num)]
  rw [show ((10 : ℚ) * min (((1 : ℕ) : ℚ) / ((400 : ℕ) : ℚ) * 100) 100) = 5/2 by
    push_cast; norm_num]
  rw [round_eq, show ((5/2 : ℚ) + 1/2) = 3 by norm_num]
  rw [show ((3 : ℚ)) = ((3 : ℤ) : ℚ) by norm_num, Int.floor_intCast]

/-- C2: for every entity the computed engagement percentage equals
round(min(pacts / pupils * 100, 100), 1) when pupils is positive and 0 when
pupils is zero, and it never exceeds 100; in particular 120 pacts over 100
pupils give exactly 100. -/
theorem c2_engagement :
    (∀ (schools : List School), ∀ s ∈ calculate_metrics schools,
        s.pact_pct = schoolPct s.pacts s.pupils)
    ∧ (∀ pc pu : ℕ, 0 < pu →
        schoolPct pc pu = round1 (min ((pc : ℚ) / (pu : ℚ) * 100) 100))
    ∧ (∀ pc : ℕ, schoolPct pc 0 = 0)
    ∧ (∀ pc pu : ℕ, 0 ≤ schoolPct pc pu ∧ schoolPct pc pu ≤ 100)
    ∧ (∀ pc pu : ℕ, regionPct pc pu = schoolPct pc pu ∧ countyPct pc pu = schoolPct pc pu)
    ∧ schoolPct 120 100 = 100 := by
  refine ⟨?_, ?_, ?_, fun pc pu => ⟨schoolPct_nonneg _ _, schoolPct_le_100 _ _⟩,
    fun pc pu => ⟨rfl, rfl⟩, schoolPct_clamped⟩
  · intro schools s hs
    obtain ⟨s0, hs0, rfl⟩ := List.mem_map.mp hs
    rfl
  · intro pc pu h
    unfold schoolPct
    rw [if_pos h]
  · intro pc
    unfold schoolPct
    simp

/-- Witness for C2 at concrete inputs: the clamped 120-over-100 scenario,
a zero-pupil school, and a member of a concrete calculate_metrics run. -/
theorem c2_witness :
    schoolPct 120 100 = 100 ∧ schoolPct 7 0 = 0
    ∧ exSchool0M.pact_pct = schoolPct exSchool0M.pacts exSchool0M.pupils :=
  ⟨c2_engagement.2.2.2.2.2, c2_engagement.2.2.1 7,
    c2_engagement.1 [exSchool0] exSchool0M (by decide)⟩

/-- C9 counterexample: the claim says the shared rounding is half-up, but
on 1 pact over 400 pupils (exact value 0.25 percent) the code rounds to
even, giving 0.2, while half-up would give 0.3. -/
theorem c9_counterexample :
    schoolPct 1 400 = 1/5 ∧ specHalfUpPct 1 400 = 3/10
    ∧ ¬ schoolPct 1 400 = specHalfUpPct 1 400 := by
  refine ⟨schoolPct_1_400, specHalfUp_1_400, ?_⟩
  rw [schoolPct_1_400, specHalfUp_1_400]
  norm_num

/-- C9 amended: the same engagement function (clamped at 100, rounded
half-to-even to one decimal) is applied at school, region, and county
level, and the county percentage is recomputed inside annotation from the
assigned pacts and pupils, not carried over; the tie at 0.25 percent rounds
to 0.2, exhibiting half-to-even rounding. -/
theorem c9_uniform :
    (∀ pc pu : ℕ, schoolPct pc pu = regionPct pc pu ∧ regionPct pc pu = countyPct pc pu)
    ∧ (∀ (st : CState) (f : Feature), ¬ f.cname = "" →
        ∃ p, (annotateFeature st f).props = some p ∧
          p.pact_pct = countyPct ((st.pacts f.cname).getD 0) ((st.pupils f.cname).getD 0))
    ∧ schoolPct 1 400 = 1/5 := by
  refine ⟨fun pc pu => ⟨rfl, rfl⟩, ?_, schoolPct_1_400⟩
  intro st f h
  unfold annotateFeature
  rw [if_neg h]
  exact ⟨_, rfl, rfl⟩

/-- Witness for C9 at a concrete feature and state. -/
theorem c9_witness :
    ∃ p, (annotateFeature emptyCState kentFeature).props = some p ∧
      p.pact_pct = countyPct ((emptyCState.pacts kentFeature.cname).getD 0)
        ((emptyCState.pupils kentFeature.cname).getD 0) :=
  c9_uniform.2.1 emptyCState kentFeature (by decide)

/- ── Lemmas about the cache association list ──────────────────────────── -/

theorem lookup_mem (c : Cache) (k : String) (v : ℚ × ℚ) (h : c.lookup k = some v) :
    (k, v) ∈ c := by
  induction c with
  | nil => simp [List.lookup] at h
  | cons e rest ih =>
    obtain ⟨k', v'⟩ := e
    by_cases hk : k = k'
    · subst hk
      simp [List.lookup] at h
      simp [h]
    · have hb : (k == k') = false := beq_false_of_ne hk
      simp [List.lookup, hb] at h
      exact List.mem_cons_of_mem _ (ih h)

theorem lookup_cupd_ne (c : Cache) (k0 k : String) (v : ℚ × ℚ) (h : ¬ k = k0) :
    (cupd c k0 v).lookup k = c.lookup k := by
  induction c with
  | nil =>
    have hb : (k == k0) = false := beq_false_of_ne h
    simp [cupd, List.lookup, hb]
  | cons e rest ih =>
    obtain ⟨k', v'⟩ := e
    by_cases hk' : k' = k0
    · subst hk'
      have hb : (k == k') = false := beq_false_of_ne h
      simp [cupd, List.lookup, hb]
    · simp only [cupd, if_neg hk']
      by_cases hkk : k = k'
      · subst hkk
        simp [List.lookup]
      · have hb : (k == k') = false := beq_false_of_ne hkk
        simp [List.lookup, hb, ih]

theorem foldItems_lookup (items : List RespItem) (c' : Cache) (k : String)
    (h : ∀ it ∈ items, ¬ respNorm it.query = k) :
    (items.foldl applyItem c').lookup k = c'.lookup k := by
  induction items generalizing c' with
  | nil => rfl
  | cons it rest ih =>
    rw [List.foldl_cons, ih _ (fun x hx => h x (List.mem_cons_of_mem _ hx))]
    unfold applyItem
    cases hres : it.result with
    | none => rfl
    | some p =>
      obtain ⟨la, lo⟩ := p
      dsimp only
      split_ifs with hg
      · exact lookup_cupd_ne _ _ _ _ (fun he => h it (List.mem_cons_self _ _) he.symm)
      · rfl

theorem foldBatches_lookup (resps : List (Option (List RespItem))) (c' : Cache) (k : String)
    (h : ∀ ro ∈ resps, ∀ it ∈ ro.getD [], ¬ respNorm it.query = k) :
    (resps.foldl applyBatch c').lookup k = c'.lookup k := by
  induction resps generalizing c' with
  | nil => rfl
  | cons ro rest ih =>
    rw [List.foldl_cons, ih _ (fun x hx => h x (List.mem_cons_of_mem _ hx))]
    cases ro with
    | none => rfl
    | some items =>
      exact foldItems_lookup items c' k
        (fun it hit => h (some items) (List.mem_cons_self _ _) it hit)

theorem mem_insertSorted (a x : String) (l : List String) (h : a ∈ insertSorted x l) :
    a = x ∨ a ∈ l := by
  induction l with
  | nil => simpa [insertSorted] using h
  | cons y ys ih =>
    unfold insertSorted at h
    split_ifs at h with hc
    · rcases List.mem_cons.mp h with h1 | h1
      · exact Or.inr (List.mem_cons.mpr (Or.inl h1))
      · rcases ih h1 with h2 | h2
        · exact Or.inl h2
        · exact Or.inr (List.mem_cons_of_mem _ h2)
    · rcases List.mem_cons.mp h with h1 | h1
      · exact Or.inl h1
      · exact Or.inr h1

theorem mem_sortStr (a : String) (l : List String) (h : a ∈ sortStr l) : a ∈ l := by
  induction l with
  | nil => simpa [sortStr] using h
  | cons y ys ih =>
    rcases mem_insertSorted a y (sortStr ys) h with h1 | h1
    · exact h1 ▸ List.mem_cons_self _ _
    · exact List.mem_cons_of_mem _ (ih h1)

theorem mem_firstDedupAux (a : String) (l seen : List String)
    (h : a ∈ firstDedupAux l seen) : a ∈ l := by
  induction l generalizing seen with
  | nil => simpa [firstDedupAux] using h
  | cons x xs ih =>
    unfold firstDedupAux at h
    split_ifs at h with hc
    · exact List.mem_cons_of_mem _ (ih seen h)
    · rcases List.mem_cons.mp h with h1 | h1
      · exact h1 ▸ List.mem_cons_self _ _
      · exact List.mem_cons_of_mem _ (ih _ h1)

theorem newPostcodes_not_cached (c : Cache) (schools : List School) (x : String)
    (h : x ∈ newPostcodes c schools) : (c.lookup x).isNone := by
  unfold newPostcodes at h
  have h1 := mem_firstDedupAux _ _ _ (mem_sortStr _ _ h)
  have h2 := (List.mem_filter.mp h1).2
  simp only [decide_eq_true_eq] at h2
  exact h2.2

theorem chunks100Aux_sub (l : List String) :
    ∀ (acc : List String) (k : ℕ), ∀ b ∈ chunks100Aux l acc k, ∀ x ∈ b, x ∈ l ∨ x ∈ acc := by
  induction l with
  | nil =>
    intro acc k b hb x hx
    unfold chunks100Aux at hb
    split_ifs at hb with hc
    · simp at hb
    · rw [List.mem_singleton] at hb
      exact Or.inr (List.mem_reverse.mp (hb ▸ hx))
  | cons y ys ih =>
    intro acc k b hb x hx
    unfold chunks100Aux at hb
    split_ifs at hb with hc
    · rcases List.mem_cons.mp hb with h | h
      · exact Or.inr (List.mem_reverse.mp (h ▸ hx))
      · rcases ih _ _ b h x hx with h1 | h1
        · exact Or.inl (List.mem_cons_of_mem _ h1)
        · rw [List.mem_singleton] at h1
          exact Or.inl (h1 ▸ List.mem_cons_self _ _)
    · rcases ih _ _ b hb x hx with h1 | h1
      · exact Or.inl (List.mem_cons_of_mem _ h1)
      · rcases List.mem_cons.mp h1 with h2 | h2
        · exact Or.inl (h2 ▸ List.mem_cons_self _ _)
        · exact Or.inr h2

theorem chunks100_sub (l : List String) : ∀ b ∈ chunks100 l, ∀ x ∈ b, x ∈ l := by
  intro b hb x hx
  rcases chunks100Aux_sub l [] 100 b hb x hx with h | h
  · exact h
  · simp at h

/-- C10: a geocoding run never removes or modifies an existing cache entry:
whenever the service echoes only queries from the requested batches (which
consist exclusively of postcodes absent from the loaded cache), every key
present at load keeps its value through the whole batch loop, including
runs where batches fail. -/
theorem c10_cache_frame (c : Cache) (schools : List School)
    (resps : List (Option (List RespItem))) (k : String) (v : ℚ × ℚ)
    (hapi : ∀ p ∈ (batches c schools).zip resps, ∀ it ∈ p.snd.getD [],
      respNorm it.query ∈ p.fst)
    (hk : c.lookup k = some v) :
    (runGeocode c schools resps).lookup k = some v := by
  unfold runGeocode
  rw [foldBatches_lookup]
  · exact hk
  · intro ro hro it hit
    obtain ⟨p, hp, rfl⟩ := List.mem_map.mp hro
    have hq : respNorm it.query ∈ p.fst := hapi p hp it hit
    have hb : p.fst ∈ batches c schools := (List.of_mem_zip hp).1
    have hnp : respNorm it.query ∈ newPostcodes c schools :=
      chunks100_sub _ _ hb _ hq
    have hnone := newPostcodes_not_cached c schools _ hnp
    intro heq
    rw [heq, hk] at hnone
    simp at hnone

/-- Witness for C10: a run over a one-batch response that inserts a new
postcode leaves the previously cached key untouched. -/
theorem c10_witness :
    (runGeocode exCache10 exSchools10 exResps10).lookup kAB = some (57, -2) :=
  c10_cache_frame exCache10 exSchools10 exResps10 kAB (57, -2) (by decide) (by decide)

/-- C7: geocode_postcodes returns exactly the input schools whose
normalized postcode resolved in the cache: every returned school carries
the cached coordinates and a nonzero latitude, and unresolved schools are
dropped rather than kept with sentinel zero coordinates.  The hypotheses
are the program's own invariants: cached latitudes are nonzero (the API
merge path stores only truthy coordinates) and parsed schools start at
lat = 0. -/
theorem c7_geocode_filter (c : Cache) (schools : List School)
    (hcache : ∀ e ∈ c, ¬ e.snd.fst = 0)
    (hinit : ∀ s ∈ schools, s.lat = 0) :
    geocodeResult c schools =
      ((schools.filter (fun s => (c.lookup (normPc s.postcode)).isSome)).map (assignCoords c))
    ∧ (∀ s ∈ geocodeResult c schools, c.lookup (normPc s.postcode) = some (s.lat, s.lng))
    ∧ (∀ s ∈ geocodeResult c schools, ¬ s.lat = 0) := by
  refine ⟨?_, ?_, ?_⟩
  · unfold geocodeResult
    rw [List.filter_map]
    congr 1
    apply List.filter_congr
    intro s hs
    unfold assignCoords
    cases hlk : c.lookup (normPc s.postcode) with
    | none =>
      simp only [Function.comp_apply, hlk]
      simp [hinit s hs]
    | some p =>
      obtain ⟨la, lo⟩ := p
      have hne : ¬ la = 0 := hcache (normPc s.postcode, (la, lo)) (lookup_mem _ _ _ hlk)
      simp only [Function.comp_apply, hlk]
      simp [hne]
  · intro s hsr
    unfold geocodeResult at hsr
    rw [List.mem_filter] at hsr
    obtain ⟨hmap, hpred⟩ := hsr
    obtain ⟨s0, hs0, rfl⟩ := List.mem_map.mp hmap
    unfold assignCoords at hpred ⊢
    cases hlk : c.lookup (normPc s0.postcode) with
    | none =>
      rw [hlk] at hpred
      simp [hinit s0 hs0] at hpred
    | some p =>
      obtain ⟨la, lo⟩ := p
      rw [hlk]
  · intro s hsr
    unfold geocodeResult at hsr
    rw [List.mem_filter] at hsr
    have := hsr.2
    simpa using this

/-- Witness for C7 on a two-school list: the cached school is returned
with cache coordinates, the uncached one is dropped. -/
theorem c7_witness :
    geocodeResult exCache7 exSchools7 =
      ((exSchools7.filter
          (fun s => (exCache7.lookup (normPc s.postcode)).isSome)).map (assignCoords exCache7))
    ∧ (∀ s ∈ geocodeResult exCache7 exSchools7,
        exCache7.lookup (normPc s.postcode) = some (s.lat, s.lng))
    ∧ (∀ s ∈ geocodeResult exCache7 exSchools7, ¬ s.lat = 0) :=
  c7_geocode_filter exCache7 exSchools7 (by decide) (by decide)

/-- C6 counterexample: persistence is a plain truncate-then-write of the
cache file, so the crash point between the two operations leaves an empty
file, which is neither the old nor the new cache contents. -/
theorem c6_counterexample :
    ¬ (∀ k : ℕ, crashState exOld6 (persistOps exNew6) k = exOld6
        ∨ crashState exOld6 (persistOps exNew6) k = exNew6) := by
  intro h
  have h1 := h 1
  revert h1
  decide

/-- C6 amended: the cache is loaded before the batch loop mutates it, but
persistence is an in-place truncate followed by a full write, not
write-then-replace: completing both steps yields the new contents, while a
crash between truncate and write leaves an empty file that loses every
previously cached entry. -/
theorem c6_persistence (old new : Cache) :
    crashState old (persistOps new) 0 = old
    ∧ crashState old (persistOps new) 1 = []
    ∧ crashState old (persistOps new) 2 = new :=
  ⟨rfl, rfl, rfl⟩

/- ── Lemmas about the county mapping state ────────────────────────────── -/

theorem upd_self {α : Type} (m : String → Option α) (k : String) (v : α) :
    upd m k v k = some v := by
  simp [upd]

theorem upd_other {α : Type} (m : String → Option α) (k : String) (v : α) (x : String)
    (h : ¬ x = k) : upd m k v x = m x := by
  simp [upd, h]

theorem mergeParts_pos (agg : String → Agg) (srcs : List String)
    (h : 0 < (mergeParts agg srcs).length) :
    0 < ((srcs.map (fun n => (agg n).pacts)).sum) := by
  unfold mergeParts at h
  rw [List.length_map] at h
  obtain ⟨n, hn⟩ := List.exists_mem_of_length_pos h
  have h2 := List.mem_filter.mp hn
  have hp : 0 < (agg n).pacts := by simpa using h2.2
  calc 0 < (agg n).pacts := hp
    _ ≤ (srcs.map (fun n => (agg n).pacts)).sum :=
      List.single_le_sum (fun _ _ => Nat.zero_le _) _ (List.mem_map.mpr ⟨n, h2.1, rfl⟩)

theorem applyMerge_warnings (agg : String → Agg) (st : CState) (rule : String × List String) :
    (applyMerge agg st rule).warnings = st.warnings := by
  unfold applyMerge
  dsimp only
  split_ifs <;> rfl

theorem applyMerge_labels_other (agg : String → Agg) (st : CState) (gname : String)
    (gsrcs : List String) (c : String) (h : ¬ c = gname) :
    (applyMerge agg st (gname, gsrcs)).labels c = st.labels c := by
  unfold applyMerge
  dsimp only
  split_ifs <;> simp [upd, h]

theorem applyMerge_label_self (agg : String → Agg) (st : CState) (g : String)
    (srcs : List String) (hst : st.labels g = none) :
    (applyMerge agg st (g, srcs)).labels g =
      (if 1 < (mergeParts agg srcs).length
       then some (String.intercalate " + " (mergeParts agg srcs)) else none) := by
  by_cases hp : 1 < (mergeParts agg srcs).length
  · have htp : 0 < ((srcs.map (fun n => (agg n).pacts)).sum) :=
      mergeParts_pos agg srcs (Nat.lt_of_lt_of_le Nat.zero_lt_one (Nat.le_of_lt hp))
    unfold applyMerge
    rw [if_pos hp]
    dsimp only
    rw [if_pos (Or.inl htp), if_pos hp]
    exact upd_self _ _ _
  · unfold applyMerge
    rw [if_neg hp]
    dsimp only
    split_ifs with h1
    · exact hst
    · exact hst

theorem bset_warnings (a : Agg) (lbl : String) (st : CState) (c : String) :
    (bset a lbl st c).warnings = st.warnings := rfl

theorem bfold_keep (a : Agg) (lbl : String) (cs : List String) (st : CState) (c : String)
    (h : st.pacts c = some a.pacts ∧ st.pupils c = some a.pupils
      ∧ st.schools c = some a.school_count ∧ st.labels c = some lbl) :
    (cs.foldl (bset a lbl) st).pacts c = some a.pacts
    ∧ (cs.foldl (bset a lbl) st).pupils c = some a.pupils
    ∧ (cs.foldl (bset a lbl) st).schools c = some a.school_count
    ∧ (cs.foldl (bset a lbl) st).labels c = some lbl := by
  induction cs generalizing st with
  | nil => exact h
  | cons c' rest ih =>
    rw [List.foldl_cons]
    apply ih
    by_cases hc : c = c'
    · subst hc
      exact ⟨upd_self _ _ _, upd_self _ _ _, upd_self _ _ _, upd_self _ _ _⟩
    · exact ⟨(upd_other _ _ _ _ hc).trans h.1, (upd_other _ _ _ _ hc).trans h.2.1,
        (upd_other _ _ _ _ hc).trans h.2.2.1, (upd_other _ _ _ _ hc).trans h.2.2.2⟩

theorem bfold_sets (a : Agg) (lbl : String) (cs : List String) (st : CState) (c : String)
    (hc : c ∈ cs) :
    (cs.foldl (bset a lbl) st).pacts c = some a.pacts
    ∧ (cs.foldl (bset a lbl) st).pupils c = some a.pupils
    ∧ (cs.foldl (bset a lbl) st).schools c = some a.school_count
    ∧ (cs.foldl (bset a lbl) st).labels c = some lbl := by
  induction cs generalizing st with
  | nil => cases hc
  | cons c' rest ih =>
    rw [List.foldl_cons]
    rcases List.mem_cons.mp hc with h1 | h1
    · subst h1
      apply bfold_keep
      exact ⟨upd_self _ _ _, upd_self _ _ _, upd_self _ _ _, upd_self _ _ _⟩
    · exact ih (bset a lbl st c') h1

theorem bfold_other (a : Agg) (lbl : String) (cs : List String) (st : CState) (c : String)
    (hc : ¬ c ∈ cs) :
    (cs.foldl (bset a lbl) st).pacts c = st.pacts c
    ∧ (cs.foldl (bset a lbl) st).pupils c = st.pupils c
    ∧ (cs.foldl (bset a lbl) st).schools c = st.schools c
    ∧ (cs.foldl (bset a lbl) st).labels c = st.labels c := by
  induction cs generalizing st with
  | nil => exact ⟨rfl, rfl, rfl, rfl⟩
  | cons c' rest ih =>
    rw [List.foldl_cons]
    have hne : ¬ c = c' := fun he => hc (he ▸ List.mem_cons_self _ _)
    have hrest : ¬ c ∈ rest := fun he => hc (List.mem_cons_of_mem _ he)
    obtain ⟨p1, p2, p3, p4⟩ := ih (bset a lbl st c') hrest
    exact ⟨p1.trans (upd_other _ _ _ _ hne), p2.trans (upd_other _ _ _ _ hne),
      p3.trans (upd_other _ _ _ _ hne), p4.trans (upd_other _ _ _ _ hne)⟩

theorem applyBroadcast_other (agg : String → Agg) (st : CState) (src : String)
    (targets : List String) (c : String) (hc : ¬ c ∈ targets) :
    (applyBroadcast agg st (src, targets)).pacts c = st.pacts c
    ∧ (applyBroadcast agg st (src, targets)).pupils c = st.pupils c
    ∧ (applyBroadcast agg st (src, targets)).schools c = st.schools c
    ∧ (applyBroadcast agg st (src, targets)).labels c = st.labels c := by
  unfold applyBroadcast
  dsimp only
  split_ifs with h
  · exact bfold_other _ _ _ _ _ hc
  · exact ⟨rfl, rfl, rfl, rfl⟩

theorem applyBroadcast_sets (agg : String → Agg) (st : CState) (src : String)
    (targets : List String) (c : String)
    (hact : 0 < (agg src).pacts ∨ 0 < (agg src).school_count) (hc : c ∈ targets) :
    (applyBroadcast agg st (src, targets)).pacts c = some (agg src).pacts
    ∧ (applyBroadcast agg st (src, targets)).pupils c = some (agg src).pupils
    ∧ (applyBroadcast agg st (src, targets)).schools c = some (agg src).school_count
    ∧ (applyBroadcast agg st (src, targets)).labels c = some (broadcastLabel src) := by
  unfold applyBroadcast
  dsimp only
  rw [if_pos hact]
  exact bfold_sets _ _ _ _ _ hc

theorem bfold_warnings (a : Agg) (lbl : String) (cs : List String) (st : CState) :
    (cs.foldl (bset a lbl) st).warnings = st.warnings := by
  induction cs generalizing st with
  | nil => rfl
  | cons c' rest ih => rw [List.foldl_cons]; exact ih _

theorem applyBroadcast_warnings (agg : String → Agg) (st : CState)
    (rule : String × List String) :
    (applyBroadcast agg st rule).warnings = st.warnings := by
  unfold applyBroadcast
  dsimp only
  split_ifs
  · exact bfold_warnings _ _ _ _
  · rfl

theorem foldMerge_warnings (agg : String → Agg) (rules : List (String × List String))
    (st : CState) : (rules.foldl (applyMerge agg) st).warnings = st.warnings := by
  induction rules generalizing st with
  | nil => rfl
  | cons rule rest ih =>
    rw [List.foldl_cons, ih _, applyMerge_warnings]

theorem foldBroadcast_warnings (agg : String → Agg) (rules : List (String × List String))
    (st : CState) : (rules.foldl (applyBroadcast agg) st).warnings = st.warnings := by
  induction rules generalizing st with
  | nil => rfl
  | cons rule rest ih =>
    rw [List.foldl_cons, ih _, applyBroadcast_warnings]

theorem applyDirect_labels (agg : String → Agg) (geoNames : List String) (st : CState)
    (r c : String) : (applyDirect agg geoNames st r).labels c = st.labels c := by
  unfold applyDirect
  dsimp only
  split_ifs <;> rfl

theorem foldDirect_labels (agg : String → Agg) (geoNames : List String)
    (names : List String) (st : CState) (c : String) :
    (names.foldl (applyDirect agg geoNames) st).labels c = st.labels c := by
  induction names generalizing st with
  | nil => rfl
  | cons r rest ih =>
    rw [List.foldl_cons, ih _, applyDirect_labels]

theorem applyDirect_fields (agg : String → Agg) (geoNames : List String) (st : CState)
    (r c : String) (h : alreadyMapped.contains r = false → ¬ renameOf r = c) :
    (applyDirect agg geoNames st r).pacts c = st.pacts c
    ∧ (applyDirect agg geoNames st r).pupils c = st.pupils c
    ∧ (applyDirect agg geoNames st r).schools c = st.schools c := by
  unfold applyDirect
  dsimp only
  split_ifs with h1 h2 h3
  · exact ⟨rfl, rfl, rfl⟩
  · have hne : ¬ renameOf r = c := h (by simpa using h1)
    exact ⟨upd_other _ _ _ _ (fun he => hne he.symm),
      upd_other _ _ _ _ (fun he => hne he.symm),
      upd_other _ _ _ _ (fun he => hne he.symm)⟩
  · exact ⟨rfl, rfl, rfl⟩
  · exact ⟨rfl, rfl, rfl⟩

theorem foldDirect_fields (agg : String → Agg) (geoNames : List String)
    (names : List String) (st : CState) (c : String)
    (h : ∀ r ∈ names, alreadyMapped.contains r = false → ¬ renameOf r = c) :
    (names.foldl (applyDirect agg geoNames) st).pacts c = st.pacts c
    ∧ (names.foldl (applyDirect agg geoNames) st).pupils c = st.pupils c
    ∧ (names.foldl (applyDirect agg geoNames) st).schools c = st.schools c := by
  induction names generalizing st with
  | nil => exact ⟨rfl, rfl, rfl⟩
  | cons r rest ih =>
    rw [List.foldl_cons]
    obtain ⟨p1, p2, p3⟩ := ih (applyDirect agg geoNames st r) (fun x hx => h x (List.mem_cons_of_mem _ hx))
    obtain ⟨q1, q2, q3⟩ :=
      applyDirect_fields agg geoNames st r c (h r (List.mem_cons_self _ _))
    exact ⟨p1.trans q1, p2.trans q2, p3.trans q3⟩

theorem applyDirect_warnings (agg : String → Agg) (geoNames : List String) (st : CState)
    (r : String) :
    (applyDirect agg geoNames st r).warnings =
      st.warnings ++ (if warnB geoNames r then [r] else []) := by
  unfold applyDirect
  dsimp only
  by_cases h1 : alreadyMapped.contains r = true
  · rw [if_pos h1]
    have hw : warnB geoNames r = false := by
      simp [warnB]
      intro hx
      exact absurd (by simpa using h1) hx
    simp [hw]
  · rw [if_neg h1]
    by_cases h2 : geoNames.contains (renameOf r) = true
    · rw [if_pos h2]
      have hw : warnB geoNames r = false := by
        simp [warnB]
        intro _ hy
        exact absurd (by simpa using h2) hy
      simp [hw]
    · rw [if_neg h2]
      by_cases h3 : OMITTED.contains r = true
      · rw [if_pos h3]
        have hw : warnB geoNames r = false := by
          simp [warnB]
          intro _ _
          simpa using h3
        simp [hw]
      · rw [if_neg h3]
        have hw : warnB geoNames r = true := by
          simp [warnB]
          exact ⟨⟨by simpa using h1, by simpa using h2⟩, by simpa using h3⟩
        simp [hw]

theorem foldDirect_warnings (agg : String → Agg) (geoNames : List String)
    (names : List String) (st : CState) :
    (names.foldl (applyDirect agg geoNames) st).warnings =
      st.warnings ++ names.filter (warnB geoNames) := by
  induction names generalizing st with
  | nil => simp
  | cons r rest ih =>
    rw [List.foldl_cons, ih _, applyDirect_warnings, List.filter_cons]
    by_cases h : warnB geoNames r
    · rw [if_pos h, if_pos h, List.append_assoc]
      rfl
    · rw [if_neg h, if_neg (by simpa using h)]
      simp

theorem countyPct_eq_schoolPct (pc pu : ℕ) : countyPct pc pu = schoolPct pc pu := rfl

/-- C4 counterexample: a boundary feature whose properties yield no county
name is skipped by the annotation loop, so its aggregate fields stay
absent, contradicting the claim that they are never absent. -/
theorem c4_counterexample :
    ¬ (∀ g ∈ build_county_data [] exRD [emptyFeature], ∃ p, g.props = some p) := by
  intro h
  have h1 : emptyFeature ∈ build_county_data [] exRD [emptyFeature] := by decide
  obtain ⟨p, hp⟩ := h emptyFeature h1
  simp [emptyFeature] at hp

/-- C4 amended: every output feature whose county name is nonempty has the
four aggregate fields present (defaulted to zero and the empty label when
nothing mapped to it), with pacts and pupils nonnegative and the
engagement percentage between 0 and 100; a feature with an empty county
name is left untouched. -/
theorem c4_fields (schools : List School) (rd : String → RegionData)
    (features : List Feature) (g : Feature)
    (hg : g ∈ build_county_data schools rd features) (hname : ¬ g.cname = "") :
    ∃ p, g.props = some p ∧ 0 ≤ p.pacts ∧ 0 ≤ p.pupils
      ∧ 0 ≤ p.pact_pct ∧ p.pact_pct ≤ 100 := by
  unfold build_county_data at hg
  obtain ⟨f, hf, rfl⟩ := List.mem_map.mp hg
  by_cases hcn : f.cname = ""
  · exact absurd (by simpa [annotateFeature, hcn] using hcn) hname
  · unfold annotateFeature
    rw [if_neg hcn]
    refine ⟨_, rfl, Nat.zero_le _, Nat.zero_le _, ?_, ?_⟩
    · rw [countyPct_eq_schoolPct]
      exact schoolPct_nonneg _ _
    · rw [countyPct_eq_schoolPct]
      exact schoolPct_le_100 _ _

/-- Witness for C4 on the Kent feature against the empty dataset. -/
theorem c4_witness :
    ∃ p, annotatedKent.props = some p ∧ 0 ≤ p.pacts ∧ 0 ≤ p.pupils
      ∧ 0 ≤ p.pact_pct ∧ p.pact_pct ≤ 100 :=
  c4_fields [] exRD [kentFeature] annotatedKent (by decide) (by decide)

/-- C1 counterexample: a school whose postcode never geocodes is counted in
the parse-time region data (5 pacts, 10 pupils) but the county aggregation
is rebuilt from the geocode-filtered school list, so the Kent feature gets
0 pacts, not 5 — the school's counts are not reflected in the county
aggregate. -/
theorem c1_counterexample :
    (regionDataOf exDecl1 exParsed1 kKent).school_pacts = 5
    ∧ (regionDataOf exDecl1 exParsed1 kKent).pupils = 10
    ∧ build_county_data (calculate_metrics (geocodeResult [] exParsed1))
        (regionDataOf exDecl1 exParsed1) [kentFeature] = [annotatedKent]
    ∧ ¬ ((5 : ℕ) = 0) := by
  refine ⟨by decide, by decide, by decide, by decide⟩

/-- C1 amended: a school that fails to geocode still contributes its pact
and pupil counts to the parse-time region data computed from the full
parsed list, but the school list that reaches county aggregation is the
geocode-filtered one, from which that school is absent; the region_data
argument of build_county_data is ignored entirely. -/
theorem c1_pre_filter (parsed : List School) (s0 : School) (c : Cache)
    (d : String → ℕ) (rd rd' : String → RegionData) (features : List Feature)
    (schools : List School)
    (hnc : c.lookup (normPc s0.postcode) = none) (h0 : s0.lat = 0) :
    (regionDataOf d (s0 :: parsed) s0.region).school_pacts
        = s0.pacts + (regionDataOf d parsed s0.region).school_pacts
    ∧ (regionDataOf d (s0 :: parsed) s0.region).pupils
        = s0.pupils + (regionDataOf d parsed s0.region).pupils
    ∧ geocodeResult c (s0 :: parsed) = geocodeResult c parsed
    ∧ build_county_data schools rd features = build_county_data schools rd' features := by
  refine ⟨?_, ?_, ?_, rfl⟩
  · unfold regionDataOf
    dsimp only
    rw [List.filter_cons_of_pos (by simp), List.map_cons, List.sum_cons]
  · unfold regionDataOf
    dsimp only
    rw [List.filter_cons_of_pos (by simp), List.map_cons, List.sum_cons]
  · unfold geocodeResult
    rw [List.map_cons]
    have hs0 : assignCoords c s0 = s0 := by
      unfold assignCoords
      rw [hnc]
    rw [hs0]
    rw [List.filter_cons_of_neg (by simp [h0])]

/-- Witness for C1 at the Kent school with an empty cache. -/
theorem c1_witness :
    (regionDataOf exDecl1 ([kentSchool] : List School) kentSchool.region).school_pacts
        = kentSchool.pacts + (regionDataOf exDecl1 [] kentSchool.region).school_pacts
    ∧ (regionDataOf exDecl1 ([kentSchool] : List School) kentSchool.region).pupils
        = kentSchool.pupils + (regionDataOf exDecl1 [] kentSchool.region).pupils
    ∧ geocodeResult [] ([kentSchool] : List School) = geocodeResult [] []
    ∧ build_county_data [] exRD [kentFeature] = build_county_data [] exRD [kentFeature] :=
  c1_pre_filter [] kentSchool [] exDecl1 exRD exRD [kentFeature] [] (by decide) (by decide)

/-- C3 counterexample: the claim's scenario says a region Wales with
declared total 200 yields pacts 200 in each broadcast county, but the
broadcast uses the derived aggregate of the geocode-filtered schools (150
here), not the declared total, so Clwyd shows 150, not 200. -/
theorem c3_counterexample :
    (regionDataOf exDecl3 [walesSchool0] kWales).pacts = 200
    ∧ ((build_county_data (calculate_metrics (geocodeResult exCache3 [walesSchool0]))
        (regionDataOf exDecl3 [walesSchool0]) [clwydFeature]).map
          (fun g => g.props.map FProps.pacts)) = [some 150]
    ∧ ¬ ((150 : ℕ) = 200) := by
  refine ⟨by decide, by decide, by decide⟩

/-- C3 amended: for every configured broadcast rule whose source region has
a nonzero derived aggregate, every listed target county is assigned the
identical, unapportioned derived aggregate of the source region (not
divided by the number of counties, and not the declared total), and every
such county carries the identical national-total label; the assignment
survives the direct-match pass provided no unclaimed region renames onto a
target county. -/
theorem c3_broadcast (agg : String → Agg) (names geoNames : List String)
    (src : String) (targets : List String)
    (hrule : (src, targets) ∈ NATIONAL_REGIONS) (c : String) (hc : c ∈ targets)
    (hact : 0 < (agg src).pacts ∨ 0 < (agg src).school_count)
    (hnc : ∀ r ∈ names, alreadyMapped.contains r = false → ¬ renameOf r = c) :
    (mapCounties agg names geoNames).pacts c = some (agg src).pacts
    ∧ (mapCounties agg names geoNames).pupils c = some (agg src).pupils
    ∧ (mapCounties agg names geoNames).schools c = some (agg src).school_count
    ∧ (mapCounties agg names geoNames).labels c = some (broadcastLabel src) := by
  unfold mapCounties
  obtain ⟨d1, d2, d3⟩ := foldDirect_fields agg geoNames names
    (NATIONAL_REGIONS.foldl (applyBroadcast agg) (MERGE_MAP.foldl (applyMerge agg) emptyCState))
    c hnc
  have d4 := foldDirect_labels agg geoNames names
    (NATIONAL_REGIONS.foldl (applyBroadcast agg) (MERGE_MAP.foldl (applyMerge agg) emptyCState)) c
  rw [d1, d2, d3, d4]
  simp only [NATIONAL_REGIONS, List.foldl_cons, List.foldl_nil]
  simp only [NATIONAL_REGIONS, List.mem_cons, List.not_mem_nil, or_false,
    Prod.mk.injEq] at hrule
  rcases hrule with ⟨hs, ht⟩ | ⟨hs, ht⟩ | ⟨hs, ht⟩
  · subst hs; subst ht
    have hw : ¬ c ∈ walesTargets :=
      (by decide : ∀ x ∈ scotlandTargets, ¬ x ∈ walesTargets) c hc
    have hn : ¬ c ∈ niTargets :=
      (by decide : ∀ x ∈ scotlandTargets, ¬ x ∈ niTargets) c hc
    obtain ⟨n1, n2, n3, n4⟩ := applyBroadcast_other agg
      (applyBroadcast agg
        (applyBroadcast agg (MERGE_MAP.foldl (applyMerge agg) emptyCState)
          ("Scotland", scotlandTargets)) ("Wales", walesTargets))
      "Northern Ireland" niTargets c hn
    obtain ⟨w1, w2, w3, w4⟩ := applyBroadcast_other agg
      (applyBroadcast agg (MERGE_MAP.foldl (applyMerge agg) emptyCState)
        ("Scotland", scotlandTargets)) "Wales" walesTargets c hw
    obtain ⟨s1, s2, s3, s4⟩ := applyBroadcast_sets agg
      (MERGE_MAP.foldl (applyMerge agg) emptyCState) "Scotland" scotlandTargets c hact hc
    rw [n1, w1, s1, n2, w2, s2, n3, w3, s3, n4, w4, s4]
    exact ⟨rfl, rfl, rfl, rfl⟩
  · subst hs; subst ht
    have hn : ¬ c ∈ niTargets :=
      (by decide : ∀ x ∈ walesTargets, ¬ x ∈ niTargets) c hc
    obtain ⟨n1, n2, n3, n4⟩ := applyBroadcast_other agg
      (applyBroadcast agg
        (applyBroadcast agg (MERGE_MAP.foldl (applyMerge agg) emptyCState)
          ("Scotland", scotlandTargets)) ("Wales", walesTargets))
      "Northern Ireland" niTargets c hn
    obtain ⟨w1, w2, w3, w4⟩ := applyBroadcast_sets agg
      (applyBroadcast agg (MERGE_MAP.foldl (applyMerge agg) emptyCState)
        ("Scotland", scotlandTargets)) "Wales" walesTargets c hact hc
    rw [n1, w1, n2, w2, n3, w3, n4, w4]
    exact ⟨rfl, rfl, rfl, rfl⟩
  · subst hs; subst ht
    obtain ⟨n1, n2, n3, n4⟩ := applyBroadcast_sets agg
      (applyBroadcast agg
        (applyBroadcast agg (MERGE_MAP.foldl (applyMerge agg) emptyCState)
          ("Scotland", scotlandTargets)) ("Wales", walesTargets))
      "Northern Ireland" niTargets c hact hc
    rw [n1, n2, n3, n4]
    exact ⟨rfl, rfl, rfl, rfl⟩

/-- Witness for C3: a Wales school with 200 pacts broadcasts 200,
unapportioned, onto Clwyd with the Wales national-total label. -/
theorem c3_witness :
    (mapCounties (regionAgg [exWales200]) (regionNames [exWales200]) []).pacts kClwyd
        = some (regionAgg [exWales200] kWales).pacts
    ∧ (mapCounties (regionAgg [exWales200]) (regionNames [exWales200]) []).pupils kClwyd
        = some (regionAgg [exWales200] kWales).pupils
    ∧ (mapCounties (regionAgg [exWales200]) (regionNames [exWales200]) []).schools kClwyd
        = some (regionAgg [exWales200] kWales).school_count
    ∧ (mapCounties (regionAgg [exWales200]) (regionNames [exWales200]) []).labels kClwyd
        = some (broadcastLabel kWales) :=
  c3_broadcast (regionAgg [exWales200]) (regionNames [exWales200]) [] kWales walesTargets
    (by decide) kClwyd (by decide) (by decide) (by decide)

/-- C5 counterexample: the merge label concatenates each nonzero
contributor's derived aggregate pact count (7 for Greater Manchester),
while the claim says it uses the declared total (100 here), which produces
a different label. -/
theorem c5_counterexample :
    (mapCounties (regionAgg exGMSchools) (regionNames exGMSchools) []).labels kGM
        = some gmLabel
    ∧ ¬ specMergeLabel exDecl5 (regionAgg exGMSchools) gmSources = gmLabel := by
  refine ⟨by decide, by decide⟩

/-- C5 amended: for every configured merge rule, a provenance label is
emitted for the target county exactly when more than one listed source
region has a nonzero derived pact count, the label concatenates each
nonzero contributor's name with its derived aggregate pact count (not the
declared total), and all listed source regions are marked claimed
regardless of whether any contributed nonzero data. -/
theorem c5_merge_label (agg : String → Agg) (names geoNames : List String)
    (g : String) (srcs : List String) (hrule : (g, srcs) ∈ MERGE_MAP) :
    ((mapCounties agg names geoNames).labels g =
      if 1 < (mergeParts agg srcs).length
      then some (String.intercalate " + " (mergeParts agg srcs)) else none)
    ∧ ∀ n ∈ srcs, n ∈ alreadyMapped := by
  simp only [MERGE_MAP, List.mem_cons, List.not_mem_nil, or_false,
    Prod.mk.injEq] at hrule
  constructor
  · unfold mapCounties
    rw [foldDirect_labels]
    simp only [NATIONAL_REGIONS, List.foldl_cons, List.foldl_nil]
    rcases hrule with ⟨hg, hs⟩ | ⟨hg, hs⟩ | ⟨hg, hs⟩ | ⟨hg, hs⟩ <;> subst hg <;> subst hs
    · rw [(applyBroadcast_other agg _ "Northern Ireland" niTargets "Greater London"
            (by decide)).2.2.2,
          (applyBroadcast_other agg _ "Wales" walesTargets "Greater London"
            (by decide)).2.2.2,
          (applyBroadcast_other agg _ "Scotland" scotlandTargets "Greater London"
            (by decide)).2.2.2]
      simp only [MERGE_MAP, List.foldl_cons, List.foldl_nil]
      rw [applyMerge_labels_other agg _ "Durham" durhamSources "Greater London" (by decide),
          applyMerge_labels_other agg _ "Somerset" somersetSources "Greater London"
            (by decide),
          applyMerge_labels_other agg _ "Greater Manchester" gmSources "Greater London"
            (by decide)]
      exact applyMerge_label_self agg emptyCState "Greater London" londonSources rfl
    · rw [(applyBroadcast_other agg _ "Northern Ireland" niTargets "Greater Manchester"
            (by decide)).2.2.2,
          (applyBroadcast_other agg _ "Wales" walesTargets "Greater Manchester"
            (by decide)).2.2.2,
          (applyBroadcast_other agg _ "Scotland" scotlandTargets "Greater Manchester"
            (by decide)).2.2.2]
      simp only [MERGE_MAP, List.foldl_cons, List.foldl_nil]
      rw [applyMerge_labels_other agg _ "Durham" durhamSources "Greater Manchester"
            (by decide),
          applyMerge_labels_other agg _ "Somerset" somersetSources "Greater Manchester"
            (by decide)]
      have hst : (applyMerge agg emptyCState ("Greater London", londonSources)).labels
          "Greater Manchester" = none := by
        rw [applyMerge_labels_other agg emptyCState "Greater London" londonSources
          "Greater Manchester" (by decide)]
        rfl
      exact applyMerge_label_self agg _ "Greater Manchester" gmSources hst
    · rw [(applyBroadcast_other agg _ "Northern Ireland" niTargets "Somerset"
            (by decide)).2.2.2,
          (applyBroadcast_other agg _ "Wales" walesTargets "Somerset" (by decide)).2.2.2,
          (applyBroadcast_other agg _ "Scotland" scotlandTargets "Somerset"
            (by decide)).2.2.2]
      simp only [MERGE_MAP, List.foldl_cons, List.foldl_nil]
      rw [applyMerge_labels_other agg _ "Durham" durhamSources "Somerset" (by decide)]
      have hst : (applyMerge agg (applyMerge agg emptyCState
          ("Greater London", londonSources)) ("Greater Manchester", gmSources)).labels
          "Somerset" = none := by
        rw [applyMerge_labels_other agg _ "Greater Manchester" gmSources "Somerset"
              (by decide),
            applyMerge_labels_other agg emptyCState "Greater London" londonSources
              "Somerset" (by decide)]
        rfl
      exact applyMerge_label_self agg _ "Somerset" somersetSources hst
    · rw [(applyBroadcast_other agg _ "Northern Ireland" niTargets "Durham"
            (by decide)).2.2.2,
          (applyBroadcast_other agg _ "Wales" walesTargets "Durham" (by decide)).2.2.2,
          (applyBroadcast_other agg _ "Scotland" scotlandTargets "Durham"
            (by decide)).2.2.2]
      simp only [MERGE_MAP, List.foldl_cons, List.foldl_nil]
      have hst : (applyMerge agg (applyMerge agg (applyMerge agg emptyCState
          ("Greater London", londonSources)) ("Greater Manchester", gmSources))
          ("Somerset", somersetSources)).labels "Durham" = none := by
        rw [applyMerge_labels_other agg _ "Somerset" somersetSources "Durham" (by decide),
            applyMerge_labels_other agg _ "Greater Manchester" gmSources "Durham"
              (by decide),
            applyMerge_labels_other agg emptyCState "Greater London" londonSources
              "Durham" (by decide)]
        rfl
      exact applyMerge_label_self agg _ "Durham" durhamSources hst
  · intro n hn
    rcases hrule with ⟨hg, hs⟩ | ⟨hg, hs⟩ | ⟨hg, hs⟩ | ⟨hg, hs⟩ <;> subst hs
    · exact (by decide : ∀ x ∈ londonSources, x ∈ alreadyMapped) n hn
    · exact (by decide : ∀ x ∈ gmSources, x ∈ alreadyMapped) n hn
    · exact (by decide : ∀ x ∈ somersetSources, x ∈ alreadyMapped) n hn
    · exact (by decide : ∀ x ∈ durhamSources, x ∈ alreadyMapped) n hn

/-- Witness for C5 with two nonzero contributors in the Greater Manchester
merge rule. -/
theorem c5_witness :
    ((mapCounties (regionAgg exGMSchools) (regionNames exGMSchools) []).labels kGM =
      if 1 < (mergeParts (regionAgg exGMSchools) gmSources).length
      then some (String.intercalate " + " (mergeParts (regionAgg exGMSchools) gmSources))
      else none)
    ∧ ∀ n ∈ gmSources, n ∈ alreadyMapped :=
  c5_merge_label (regionAgg exGMSchools) (regionNames exGMSchools) [] kGM gmSources
    (by decide)

/-- C8 counterexample: the Atlantis region is present in the parsed data
(one school record) and matches no rule and no boundary name, yet its sole
school fails to geocode, so the region never reaches region_agg and the
aggregation pass emits no warning for it: the region is silently dropped,
against the claim that every parsed region name is warned when unmatched. -/
theorem c8_counterexample :
    (regionDataOf exDecl8 exParsed8 kAtlantis).school_count = 1
    ∧ ¬ kAtlantis ∈ alreadyMapped
    ∧ ¬ renameOf kAtlantis ∈ ([] : List String)
    ∧ ¬ kAtlantis ∈ (mapCounties
        (regionAgg (calculate_metrics (geocodeResult [] exParsed8)))
        (regionNames (calculate_metrics (geocodeResult [] exParsed8))) []).warnings := by
  refine ⟨by decide, by decide, by decide, by decide⟩

/-- C8 amended: every region name present in the school list that reaches
the aggregator (the geocode-filtered list, since region_agg is built from
it and region_data is never read) falls in exactly one of the five handling
categories (merge source, broadcast source, omitted, direct match after
rename, unmatched), and it appears in the warning log exactly when it is
unmatched: unclaimed by every rule and matching no boundary name.  A region
name absent from that list — for instance one whose parsed schools all
failed to geocode — is processed by no category and receives no warning. -/
theorem c8_exclusive (agg : String → Agg) (names geoNames : List String) (r : String)
    (hr : r ∈ names) :
    exactlyOneOf (r ∈ mergeSources) (r ∈ nationalKeys) (r ∈ OMITTED)
      (¬ r ∈ alreadyMapped ∧ renameOf r ∈ geoNames)
      (¬ r ∈ alreadyMapped ∧ ¬ renameOf r ∈ geoNames)
    ∧ ((¬ r ∈ alreadyMapped ∧ ¬ renameOf r ∈ geoNames) ↔
        r ∈ (mapCounties agg names geoNames).warnings)
    ∧ (∀ x, ¬ x ∈ names → ¬ x ∈ (mapCounties agg names geoNames).warnings) := by
  have hmem : r ∈ alreadyMapped ↔ (r ∈ mergeSources ∨ r ∈ nationalKeys ∨ r ∈ OMITTED) := by
    simp [alreadyMapped, List.mem_append]
  have d12 : ∀ x ∈ mergeSources, ¬ x ∈ nationalKeys := by decide
  have d13 : ∀ x ∈ mergeSources, ¬ x ∈ OMITTED := by decide
  have d23 : ∀ x ∈ nationalKeys, ¬ x ∈ OMITTED := by decide
  have hwiff : warnB geoNames r = true ↔
      (¬ r ∈ alreadyMapped ∧ ¬ renameOf r ∈ geoNames ∧ ¬ r ∈ OMITTED) := by
    simp only [warnB, Bool.and_eq_true, Bool.not_eq_true']
    constructor
    · rintro ⟨⟨a, b⟩, c⟩
      exact ⟨by simpa using a, by simpa using b, by simpa using c⟩
    · rintro ⟨a, b, c⟩
      exact ⟨⟨by simpa using a, by simpa using b⟩, by simpa using c⟩
  constructor
  · unfold exactlyOneOf
    by_cases h1 : r ∈ mergeSources
    · have hc : r ∈ alreadyMapped := hmem.mpr (Or.inl h1)
      exact Or.inl ⟨h1, d12 r h1, d13 r h1, fun hd => hd.1 hc, fun hu => hu.1 hc⟩
    · by_cases h2 : r ∈ nationalKeys
      · have hc : r ∈ alreadyMapped := hmem.mpr (Or.inr (Or.inl h2))
        exact Or.inr (Or.inl ⟨h1, h2, d23 r h2, fun hd => hd.1 hc, fun hu => hu.1 hc⟩)
      · by_cases h3 : r ∈ OMITTED
        · have hc : r ∈ alreadyMapped := hmem.mpr (Or.inr (Or.inr h3))
          exact Or.inr (Or.inr (Or.inl
            ⟨h1, h2, h3, fun hd => hd.1 hc, fun hu => hu.1 hc⟩))
        · have hc : ¬ r ∈ alreadyMapped := fun hx => by
            rcases hmem.mp hx with a | a | a
            exacts [h1 a, h2 a, h3 a]
          by_cases h4 : renameOf r ∈ geoNames
          · exact Or.inr (Or.inr (Or.inr (Or.inl
              ⟨h1, h2, h3, ⟨hc, h4⟩, fun hu => hu.2 h4⟩)))
          · exact Or.inr (Or.inr (Or.inr (Or.inr
              ⟨h1, h2, h3, fun hd => h4 hd.2, hc, h4⟩)))
  refine ⟨?_, ?_⟩
  · unfold mapCounties
    rw [foldDirect_warnings, foldBroadcast_warnings, foldMerge_warnings]
    rw [show emptyCState.warnings = [] from rfl, List.nil_append, List.mem_filter]
    constructor
    · rintro ⟨hcm, hgm⟩
      exact ⟨hr, hwiff.mpr ⟨hcm, hgm, fun hx => hcm (hmem.mpr (Or.inr (Or.inr hx)))⟩⟩
    · rintro ⟨hn, hw⟩
      obtain ⟨a, b, _⟩ := hwiff.mp hw
      exact ⟨a, b⟩
  · intro x hx hmw
    unfold mapCounties at hmw
    rw [foldDirect_warnings, foldBroadcast_warnings, foldMerge_warnings] at hmw
    rw [show emptyCState.warnings = [] from rfl, List.nil_append, List.mem_filter] at hmw
    exact hx hmw.1

/-- Witness for C8 at an unmatched region name. -/
theorem c8_witness :
    exactlyOneOf (kAtlantis ∈ mergeSources) (kAtlantis ∈ nationalKeys)
      (kAtlantis ∈ OMITTED)
      (¬ kAtlantis ∈ alreadyMapped ∧ renameOf kAtlantis ∈ ([] : List String))
      (¬ kAtlantis ∈ alreadyMapped ∧ ¬ renameOf kAtlantis ∈ ([] : List String))
    ∧ ((¬ kAtlantis ∈ alreadyMapped ∧ ¬ renameOf kAtlantis ∈ ([] : List String)) ↔
        kAtlantis ∈ (mapCounties (regionAgg []) exNames8 []).warnings)
    ∧ (∀ x, ¬ x ∈ exNames8 →
        ¬ x ∈ (mapCounties (regionAgg []) exNames8 []).warnings) :=
  c8_exclusive (regionAgg []) exNames8 [] kAtlantis (by decide)
